import Mathlib

/-!
Verification of the NGCat cache overlay.

The Go sources define an overlay (`NGCache`) over an external volatile cache
engine (freecache).  Entries written with `expireSeconds <= 0` are mirrored
into an in-memory permanent map (`persistData`), which can be snapshotted to
disk in a JSON or a compact binary format and reloaded at construction.

Modelling conventions:
* Go byte slices and byte strings are `List Nat` (one `Nat` per byte).
* Go maps are association lists with overwrite-on-insert (`mapSet`) and
  lookup (`mapGet`).
* The external engine (freecache) is modelled through its contract: `Get`
  returns the stored value or a not-found error; `Set` either stores the
  entry (normalising a non-positive TTL to 0, as freecache does) or fails
  with an engine error, the outcome chosen by an adversarial `engOk` flag,
  since the engine may reject oversized entries; eviction is a separate
  adversarial step that removes an engine entry.
* File I/O is factored out: encoders produce byte lists, decoders consume
  them; the external JSON codec is an abstract parameter.
* Go errors are constructors of the inductive `Err`.
-/

namespace NGCat

/-- A Go byte slice / byte string: one natural number per byte. -/
abbrev Bytes := List Nat

/-- `PersistFormat` from the source: selector between the JSON and the
compact binary snapshot encodings. -/
inductive PersistFormat
  | json
  | binary
  deriving DecidableEq

/-- `PersistConfig` from the source. -/
structure PersistConfig where
  enabled : Bool
  filePath : String
  fileName : String
  format : PersistFormat
  interval : Nat
  deriving DecidableEq

/-- `PersistEntry` from the source: one key/value record of a snapshot. -/
structure PersistEntry where
  key : Bytes
  value : Bytes
  deriving DecidableEq

/-- `PersistData` from the source: a snapshot document. -/
structure PersistData where
  version : Int
  timestamp : Int
  entries : List PersistEntry
  deriving DecidableEq

/-- `BinaryMagic` from the source. -/
def BinaryMagic : Nat := 0x4E474341

/-- `BinaryVersion` from the source. -/
def BinaryVersion : Nat := 1

/-- The errors of the program.  `errKeyNotFound` and `errInvalidType` are the
exported `ErrKeyNotFound` / `ErrInvalidType`; `engNotFound` is freecache's
not-found error, `engSetFail` an engine-side `Set` failure; the remaining
constructors stand for the distinct error strings of the snapshot loaders
(all read failures collapsed into `readFail`). -/
inductive Err
  | errKeyNotFound
  | errInvalidType
  | engNotFound
  | engSetFail
  | readFail
  | badMagic
  | badVersion
  | parseJSONFail
  deriving DecidableEq

/-- Go map lookup on an association list. -/
def mapGet {β : Type} : List (Bytes × β) → Bytes → Option β
  | [], _ => none
  | (k, v) :: rest, key => if k = key then some v else mapGet rest key

/-- Go map assignment: overwrite the binding of `key` or append it. -/
def mapSet {β : Type} : List (Bytes × β) → Bytes → β → List (Bytes × β)
  | [], key, val => [(key, val)]
  | (k, v) :: rest, key, val =>
      if k = key then (key, val) :: rest else (k, v) :: mapSet rest key val

/-- Removal of a binding (used only to model engine eviction). -/
def mapErase {β : Type} : List (Bytes × β) → Bytes → List (Bytes × β)
  | [], _ => []
  | (k, v) :: rest, key =>
      if k = key then mapErase rest key else (k, v) :: mapErase rest key

/-- The engine's store: key to (value, normalised TTL in seconds, 0 = no
expiry). -/
abbrev EngineMap := List (Bytes × (Bytes × Nat))

/-- The `NGCache` state: engine store, persistence configuration and the
permanent map `persistData`. -/
structure NGCache where
  cache : EngineMap
  persistConfig : Option PersistConfig
  persistData : List (Bytes × Bytes)
  deriving DecidableEq

/-- Engine `Get` per its contract: stored value on hit, not-found error on
miss. -/
def engineGet (m : EngineMap) (key : Bytes) : Except Err Bytes :=
  match mapGet m key with
  | some v => .ok v.1
  | none => .error .engNotFound

/-- Engine `Set` per its contract: when `engOk` is true the entry is stored
(freecache treats a non-positive `expireSeconds` as no expiry, hence the
`Int.toNat` normalisation); when `engOk` is false the call fails with an
engine error and the store is unchanged (freecache's size checks precede any
mutation). -/
def engineSet (m : EngineMap) (engOk : Bool) (key value : Bytes)
    (expireSeconds : Int) : EngineMap × Except Err Unit :=
  if engOk then (mapSet m key (value, expireSeconds.toNat), .ok ())
  else (m, .error .engSetFail)

/-- `setWithPersist` from the source: for `expireSeconds <= 0` first copy
the value into `persistData`, then store into the engine with the given
`expireSeconds`, returning the engine's result. -/
def setWithPersist (ng : NGCache) (engOk : Bool) (key value : Bytes)
    (expireSeconds : Int) : NGCache × Except Err Unit :=
  let ng1 :=
    if expireSeconds ≤ 0 then
      { ng with persistData := mapSet ng.persistData key value }
    else ng
  let r := engineSet ng1.cache engOk key value expireSeconds
  ({ ng1 with cache := r.1 }, r.2)

/-- `getWithPersist` from the source: engine first; on miss consult
`persistData`, and on a hit there re-insert into the engine with TTL 0
(ignoring the engine's result) and return the value; otherwise
`ErrKeyNotFound`. -/
def getWithPersist (ng : NGCache) (engOk : Bool) (key : Bytes) :
    NGCache × Except Err Bytes :=
  match engineGet ng.cache key with
  | .ok v => (ng, .ok v)
  | .error _ =>
    match mapGet ng.persistData key with
    | some v =>
        let r := engineSet ng.cache engOk key v 0
        ({ ng with cache := r.1 }, .ok v)
    | none => (ng, .error .errKeyNotFound)

/-- `SetPermanent` from the source: engine `Set` with TTL 0 first, failure
propagated; on success, mirror into `persistData` only when a persistence
configuration is present and enabled. -/
def SetPermanent (ng : NGCache) (engOk : Bool) (key value : Bytes) :
    NGCache × Except Err Unit :=
  match engineSet ng.cache engOk key value 0 with
  | (_, .error e) => (ng, .error e)
  | (c, .ok _) =>
    let ng1 := { ng with cache := c }
    match ng.persistConfig with
    | some cfg =>
        if cfg.enabled then
          ({ ng1 with persistData := mapSet ng1.persistData key value }, .ok ())
        else (ng1, .ok ())
    | none => (ng1, .ok ())

/-- `GetPermanent` from the source: engine first; on an engine miss, consult
`persistData` only when persistence is enabled, re-inserting on a hit;
otherwise return the engine's own error. -/
def GetPermanent (ng : NGCache) (engOk : Bool) (key : Bytes) :
    NGCache × Except Err Bytes :=
  match engineGet ng.cache key with
  | .ok v => (ng, .ok v)
  | .error engErr =>
    match ng.persistConfig with
    | some cfg =>
        if cfg.enabled then
          match mapGet ng.persistData key with
          | some v =>
              let r := engineSet ng.cache engOk key v 0
              ({ ng with cache := r.1 }, .ok v)
          | none => (ng, .error engErr)
        else (ng, .error engErr)
    | none => (ng, .error engErr)

/-- Little-endian recombination of a byte list (`binary.LittleEndian`). -/
def leNat : Bytes → Nat
  | [] => 0
  | b :: rest => b + 256 * leNat rest

/-- Reinterpretation of a 32-bit pattern as Go `int32` (two's complement). -/
def toInt32 (u : Nat) : Int :=
  if u < 2 ^ 31 then (u : Int) else (u : Int) - 2 ^ 32

/-- Reinterpretation of a 64-bit pattern as Go `int64` (two's complement). -/
def toInt64 (u : Nat) : Int :=
  if u < 2 ^ 63 then (u : Int) else (u : Int) - 2 ^ 64

/-- `GetInt32` from the source: fetch, then require exactly 4 bytes, else
zero value and `ErrInvalidType`. -/
def GetInt32 (ng : NGCache) (engOk : Bool) (key : Bytes) :
    NGCache × Int × Except Err Unit :=
  match getWithPersist ng engOk key with
  | (ng1, .error e) => (ng1, 0, .error e)
  | (ng1, .ok data) =>
    if data.length ≠ 4 then (ng1, 0, .error .errInvalidType)
    else (ng1, toInt32 (leNat data), .ok ())

/-- `GetInt64` from the source: fetch, then require exactly 8 bytes. -/
def GetInt64 (ng : NGCache) (engOk : Bool) (key : Bytes) :
    NGCache × Int × Except Err Unit :=
  match getWithPersist ng engOk key with
  | (ng1, .error e) => (ng1, 0, .error e)
  | (ng1, .ok data) =>
    if data.length ≠ 8 then (ng1, 0, .error .errInvalidType)
    else (ng1, toInt64 (leNat data), .ok ())

/-- `GetBool` from the source: fetch, then require exactly 1 byte; the value
is whether that byte equals 1. -/
def GetBool (ng : NGCache) (engOk : Bool) (key : Bytes) :
    NGCache × Bool × Except Err Unit :=
  match getWithPersist ng engOk key with
  | (ng1, .error e) => (ng1, false, .error e)
  | (ng1, .ok data) =>
    if data.length ≠ 1 then (ng1, false, .error .errInvalidType)
    else (ng1, data.headD 0 == 1, .ok ())

/-- `GetFloat32` from the source: fetch, then require exactly 4 bytes.  The
IEEE-754 value is represented by its bit pattern (bit reinterpretation is a
bijection and the zero value 0.0 has bit pattern 0). -/
def GetFloat32 (ng : NGCache) (engOk : Bool) (key : Bytes) :
    NGCache × Nat × Except Err Unit :=
  match getWithPersist ng engOk key with
  | (ng1, .error e) => (ng1, 0, .error e)
  | (ng1, .ok data) =>
    if data.length ≠ 4 then (ng1, 0, .error .errInvalidType)
    else (ng1, leNat data, .ok ())

/-- `GetFloat64` from the source: fetch, then require exactly 8 bytes; value
as bit pattern, as for `GetFloat32`. -/
def GetFloat64 (ng : NGCache) (engOk : Bool) (key : Bytes) :
    NGCache × Nat × Except Err Unit :=
  match getWithPersist ng engOk key with
  | (ng1, .error e) => (ng1, 0, .error e)
  | (ng1, .ok data) =>
    if data.length ≠ 8 then (ng1, 0, .error .errInvalidType)
    else (ng1, leNat data, .ok ())

/-- The 4 little-endian bytes of `n` (Go `binary.Write` of a `uint32`,
i.e. of `n` reduced modulo 2^32). -/
def u32le (n : Nat) : Bytes :=
  [n % 256, n / 256 % 256, n / 65536 % 256, n / 16777216 % 256]

/-- The 8 little-endian bytes of `n` reduced modulo 2^64. -/
def u64le (n : Nat) : Bytes :=
  [n % 256, n / 256 % 256, n / 65536 % 256, n / 16777216 % 256,
   n / 4294967296 % 256, n / 1099511627776 % 256,
   n / 281474976710656 % 256, n / 72057594037927936 % 256]

/-- The 8 little-endian bytes of an `int64` (two's complement). -/
def i64le (t : Int) : Bytes := u64le (t % (2 ^ 64 : Int)).toNat

/-- The entry loop of `saveToBinary`: sequential `binary.Write`/`Write`
calls appending key length, key, value length, value per entry to the
output. -/
def writeEntries : Bytes → List PersistEntry → Bytes
  | buf, [] => buf
  | buf, e :: rest =>
      writeEntries
        (buf ++ u32le e.key.length ++ e.key ++ u32le e.value.length ++ e.value)
        rest

/-- `saveToBinary` from the source: magic, version, timestamp, entry count,
then the entries, written sequentially little-endian. -/
def saveToBinary (data : PersistData) : Bytes :=
  writeEntries
    (([] : Bytes) ++ u32le BinaryMagic ++ u32le BinaryVersion
      ++ i64le data.timestamp ++ u32le data.entries.length)
    data.entries

/-- The per-entry byte layout as the spec states it: uint32 key length, key
bytes, uint32 value length, value bytes. -/
def specEntryBytes (e : PersistEntry) : Bytes :=
  u32le e.key.length ++ e.key ++ u32le e.value.length ++ e.value

/-- The whole-file byte layout as the spec states it: magic 0x4E474341 at
offset 0, version 1 at offset 4, int64 timestamp at offset 8, uint32 entry
count at offset 16, then the entry records. -/
def specBinaryLayout (data : PersistData) : Bytes :=
  u32le 0x4E474341 ++ u32le 1 ++ i64le data.timestamp
    ++ u32le data.entries.length ++ data.entries.flatMap specEntryBytes

/-- `binary.Read` of a `uint32`: consume 4 little-endian bytes. -/
def readU32 : Bytes → Option (Nat × Bytes)
  | b0 :: b1 :: b2 :: b3 :: rest =>
      some (b0 + 256 * b1 + 65536 * b2 + 16777216 * b3, rest)
  | _ => none

/-- `io.ReadFull` of `n` bytes: succeeds exactly when `n` bytes remain. -/
def readBytes (n : Nat) (l : Bytes) : Option (Bytes × Bytes) :=
  if n ≤ l.length then some (l.take n, l.drop n) else none

/-- `binary.Read` of an `int64`: consume 8 little-endian bytes, two's
complement. -/
def readI64 (l : Bytes) : Option (Int × Bytes) :=
  match readBytes 8 l with
  | some (bs, rest) => some (toInt64 (leNat bs), rest)
  | none => none

/-- The loader's insertion of one recovered entry: into `persistData` and
into the engine with TTL 0 (both loaders do exactly this per entry). -/
def insEntry (ng : NGCache) (e : PersistEntry) : NGCache :=
  { ng with persistData := mapSet ng.persistData e.key e.value,
            cache := mapSet ng.cache e.key (e.value, 0) }

/-- The entry loop of `loadFromBinary`: read `count` records, inserting each
into `persistData` and the engine (TTL 0) as it is read; a failed read stops
with a read error, keeping the entries already inserted. -/
def loadEntries : NGCache → Bytes → Nat → NGCache × Except Err Unit
  | ng, _, 0 => (ng, .ok ())
  | ng, bs, n + 1 =>
    match readU32 bs with
    | none => (ng, .error .readFail)
    | some (keyLen, r1) =>
      match readBytes keyLen r1 with
      | none => (ng, .error .readFail)
      | some (key, r2) =>
        match readU32 r2 with
        | none => (ng, .error .readFail)
        | some (valLen, r3) =>
          match readBytes valLen r3 with
          | none => (ng, .error .readFail)
          | some (val, r4) =>
            loadEntries (insEntry ng { key := key, value := val }) r4 n

/-- `loadFromBinary` from the source: magic checked first (distinct error),
then version (distinct error), then timestamp and entry count, then the
entry loop. -/
def loadFromBinary (ng : NGCache) (file : Bytes) : NGCache × Except Err Unit :=
  match readU32 file with
  | none => (ng, .error .readFail)
  | some (magic, r1) =>
    if magic ≠ BinaryMagic then (ng, .error .badMagic)
    else
      match readU32 r1 with
      | none => (ng, .error .readFail)
      | some (version, r2) =>
        if version ≠ BinaryVersion then (ng, .error .badVersion)
        else
          match readI64 r2 with
          | none => (ng, .error .readFail)
          | some (_, r3) =>
            match readU32 r3 with
            | none => (ng, .error .readFail)
            | some (entryCount, r4) => loadEntries ng r4 entryCount

/-- `loadFromJSON` from the source, taking the external JSON codec's decode
result: a parse failure is an error; a parsed document's entries are all
inserted into `persistData` and the engine (TTL 0) — the version field is
never inspected. -/
def loadFromJSON (ng : NGCache) (doc : Option PersistData) :
    NGCache × Except Err Unit :=
  match doc with
  | none => (ng, .error .parseJSONFail)
  | some d => (d.entries.foldl insEntry ng, .ok ())

/-- `loadFromPersist` from the source: nothing to do when persistence is
absent or disabled or the file does not exist; otherwise dispatch on the
configured format.  `jsonDecode` is the external JSON codec. -/
def loadFromPersist (jsonDecode : Bytes → Option PersistData) (ng : NGCache)
    (file : Option Bytes) : NGCache × Except Err Unit :=
  match ng.persistConfig with
  | none => (ng, .ok ())
  | some cfg =>
    if cfg.enabled then
      match file with
      | none => (ng, .ok ())
      | some bs =>
        match cfg.format with
        | .json => loadFromJSON ng (jsonDecode bs)
        | .binary => loadFromBinary ng bs
    else (ng, .ok ())

/-- `NewNGCache` from the source: fresh empty engine and empty permanent
map; when persistence is enabled, run the startup load — whose error value
is discarded, the constructor returning only the cache. -/
def NewNGCache (jsonDecode : Bytes → Option PersistData)
    (config : Option PersistConfig) (file : Option Bytes) : NGCache :=
  let ng : NGCache := { cache := [], persistConfig := config, persistData := [] }
  match config with
  | some cfg => if cfg.enabled then (loadFromPersist jsonDecode ng file).1 else ng
  | none => ng

/-- The snapshot document built by `saveToPersist`: version 1, the given
timestamp, and one entry per binding of the permanent map. -/
def saveToPersistDoc (ng : NGCache) (timestamp : Int) : PersistData :=
  { version := 1, timestamp := timestamp,
    entries := ng.persistData.map (fun kv => { key := kv.1, value := kv.2 }) }

/-- The public operations (and the engine's adversarial eviction) as a step
alphabet, for stating state invariants over arbitrary operation sequences. -/
inductive Op
  | put (engOk : Bool) (key value : Bytes) (expireSeconds : Int)
  | setPerm (engOk : Bool) (key value : Bytes)
  | fetch (engOk : Bool) (key : Bytes)
  | getPerm (engOk : Bool) (key : Bytes)
  | evict (key : Bytes)
  | flush
  | loadBin (file : Bytes)
  | loadDoc (doc : Option PersistData)

/-- One step: the state component of the corresponding operation.  `flush`
(`saveToPersist`) only reads the state; `evict` is the engine dropping an
entry. -/
def step (ng : NGCache) : Op → NGCache
  | .put engOk k v e => (setWithPersist ng engOk k v e).1
  | .setPerm engOk k v => (SetPermanent ng engOk k v).1
  | .fetch engOk k => (getWithPersist ng engOk k).1
  | .getPerm engOk k => (GetPermanent ng engOk k).1
  | .evict k => { ng with cache := mapErase ng.cache k }
  | .flush => ng
  | .loadBin file => (loadFromBinary ng file).1
  | .loadDoc doc => (loadFromJSON ng doc).1

/-- Run a sequence of operations. -/
def runOps (ng : NGCache) (ops : List Op) : NGCache := ops.foldl step ng

/-- Lookup in a snapshot's entry list (first binding wins; entry lists
produced from a map have distinct keys). -/
def entLookup : List PersistEntry → Bytes → Option Bytes
  | [], _ => none
  | e :: rest, key => if e.key = key then some e.value else entLookup rest key

/-! ### Association-list lemmas -/

theorem mapGet_mapSet_self {β : Type} (m : List (Bytes × β)) (k : Bytes) (v : β) :
    mapGet (mapSet m k v) k = some v := by
  induction m with
  | nil => simp [mapGet, mapSet]
  | cons kv rest ih =>
    obtain ⟨k1, v1⟩ := kv
    by_cases h : k1 = k
    · simp [mapSet, h, mapGet]
    · simp [mapSet, h, mapGet, ih]

theorem mapGet_mapSet_ne {β : Type} (m : List (Bytes × β)) {k1 k : Bytes}
    (v : β) (h : k1 ≠ k) : mapGet (mapSet m k1 v) k = mapGet m k := by
  induction m with
  | nil => simp [mapGet, mapSet, h]
  | cons kv rest ih =>
    obtain ⟨k2, v2⟩ := kv
    by_cases h2 : k2 = k1
    · subst h2
      simp [mapSet, mapGet, h]
    · simp only [mapSet, if_neg h2]
      by_cases h3 : k2 = k
      · simp [mapGet, h3]
      · simp [mapGet, h3, ih]

theorem isSome_mapGet_mapSet {β : Type} (m : List (Bytes × β)) (k1 k : Bytes)
    (v : β) (h : (mapGet m k).isSome = true) :
    (mapGet (mapSet m k1 v) k).isSome = true := by
  by_cases hk : k1 = k
  · subst hk
    simp [mapGet_mapSet_self]
  · rw [mapGet_mapSet_ne m v hk]
    exact h

theorem mapGet_mapErase_self {β : Type} (m : List (Bytes × β)) (k : Bytes) :
    mapGet (mapErase m k) k = none := by
  induction m with
  | nil => simp [mapGet, mapErase]
  | cons kv rest ih =>
    obtain ⟨k1, v1⟩ := kv
    by_cases h : k1 = k
    · simp [mapErase, h, ih]
    · simp [mapErase, h, mapGet, ih]

/-! ### State-shape lemmas for the facade operations -/

theorem persistData_setWithPersist (ng : NGCache) (engOk : Bool)
    (key value : Bytes) (e : Int) :
    (setWithPersist ng engOk key value e).1.persistData =
      if e ≤ 0 then mapSet ng.persistData key value else ng.persistData := by
  by_cases h : e ≤ 0 <;> cases engOk <;> simp [setWithPersist, engineSet, h]

theorem persistData_getWithPersist (ng : NGCache) (engOk : Bool) (key : Bytes) :
    (getWithPersist ng engOk key).1.persistData = ng.persistData := by
  unfold getWithPersist
  cases engineGet ng.cache key <;> simp
  cases mapGet ng.persistData key <;> simp

theorem persistData_GetPermanent (ng : NGCache) (engOk : Bool) (key : Bytes) :
    (GetPermanent ng engOk key).1.persistData = ng.persistData := by
  unfold GetPermanent
  cases engineGet ng.cache key <;> simp
  cases ng.persistConfig <;> simp
  split
  · cases mapGet ng.persistData key <;> simp
  · simp

theorem persistData_SetPermanent (ng : NGCache) (engOk : Bool)
    (key value : Bytes) :
    (SetPermanent ng engOk key value).1.persistData = ng.persistData ∨
      (SetPermanent ng engOk key value).1.persistData =
        mapSet ng.persistData key value := by
  cases engOk with
  | false => left; simp [SetPermanent, engineSet]
  | true =>
    cases hc : ng.persistConfig with
    | none => left; simp [SetPermanent, engineSet, hc]
    | some cfg =>
      by_cases he : cfg.enabled
      · right; simp [SetPermanent, engineSet, hc, he]
      · left; simp [SetPermanent, engineSet, hc, he]

theorem persistData_insEntry (ng : NGCache) (e : PersistEntry) :
    (insEntry ng e).persistData = mapSet ng.persistData e.key e.value := rfl

theorem isSome_mapGet_loadEntries (n : Nat) (ng : NGCache) (bs k : Bytes)
    (h : (mapGet ng.persistData k).isSome = true) :
    (mapGet (loadEntries ng bs n).1.persistData k).isSome = true := by
  induction n generalizing ng bs with
  | zero => simpa [loadEntries] using h
  | succ n ih =>
    unfold loadEntries
    repeat' split
    any_goals simpa using h
    apply ih
    rw [persistData_insEntry]
    exact isSome_mapGet_mapSet _ _ _ _ h

theorem isSome_mapGet_foldl_insEntry (es : List PersistEntry) (ng : NGCache)
    (k : Bytes) (h : (mapGet ng.persistData k).isSome = true) :
    (mapGet (es.foldl insEntry ng).persistData k).isSome = true := by
  induction es generalizing ng with
  | nil => simpa using h
  | cons e rest ih =>
    simp only [List.foldl_cons]
    apply ih
    rw [persistData_insEntry]
    exact isSome_mapGet_mapSet _ _ _ _ h

theorem isSome_mapGet_loadFromBinary (ng : NGCache) (file : Bytes) (k : Bytes)
    (h : (mapGet ng.persistData k).isSome = true) :
    (mapGet (loadFromBinary ng file).1.persistData k).isSome = true := by
  unfold loadFromBinary
  repeat' split
  any_goals simpa using h
  exact isSome_mapGet_loadEntries _ _ _ _ h

/-! ### Byte-level codec lemmas -/

theorem u32le_length (n : Nat) : (u32le n).length = 4 := rfl

theorem u64le_length (n : Nat) : (u64le n).length = 8 := rfl

theorem i64le_length (t : Int) : (i64le t).length = 8 := rfl

theorem readU32_append (n : Nat) (rest : Bytes) :
    readU32 (u32le n ++ rest) = some (n % 4294967296, rest) := by
  simp only [u32le, List.cons_append, List.nil_append, readU32]
  have h : n % 256 + 256 * (n / 256 % 256) + 65536 * (n / 65536 % 256)
      + 16777216 * (n / 16777216 % 256) = n % 4294967296 := by omega
  rw [h]

theorem readBytes_append (xs rest : Bytes) :
    readBytes xs.length (xs ++ rest) = some (xs, rest) := by
  simp [readBytes, List.take_left, List.drop_left]

theorem readI64_append (t : Int) (rest : Bytes) :
    ∃ x, readI64 (i64le t ++ rest) = some (x, rest) := by
  have h : readBytes (i64le t).length (i64le t ++ rest) = some (i64le t, rest) :=
    readBytes_append _ _
  rw [i64le_length] at h
  exact ⟨toInt64 (leNat (i64le t)), by simp [readI64, h]⟩

theorem writeEntries_eq (es : List PersistEntry) (buf : Bytes) :
    writeEntries buf es = buf ++ es.flatMap specEntryBytes := by
  induction es generalizing buf with
  | nil => simp [writeEntries]
  | cons e rest ih => simp [writeEntries, ih, specEntryBytes]

theorem loadEntries_encode (es : List PersistEntry) (ng : NGCache)
    (hlen : ∀ e ∈ es, e.key.length < 4294967296 ∧ e.value.length < 4294967296) :
    loadEntries ng (es.flatMap specEntryBytes) es.length =
      (es.foldl insEntry ng, .ok ()) := by
  induction es generalizing ng with
  | nil => simp [loadEntries]
  | cons e rest ih =>
    obtain ⟨hk, hv⟩ := hlen e (List.mem_cons_self e rest)
    have hrest : ∀ e' ∈ rest,
        e'.key.length < 4294967296 ∧ e'.value.length < 4294967296 :=
      fun e' he' => hlen e' (List.mem_cons_of_mem e he')
    show loadEntries ng (specEntryBytes e ++ rest.flatMap specEntryBytes)
        (rest.length + 1) = _
    unfold loadEntries
    rw [specEntryBytes]
    rw [List.append_assoc, List.append_assoc, List.append_assoc]
    rw [readU32_append, Nat.mod_eq_of_lt hk]
    simp only []
    rw [readBytes_append]
    simp only []
    rw [readU32_append, Nat.mod_eq_of_lt hv]
    simp only []
    rw [readBytes_append]
    simp only [List.foldl_cons]
    exact ih (insEntry ng e) hrest

theorem entLookup_eq_none {es : List PersistEntry} {k : Bytes}
    (h : ∀ e ∈ es, e.key ≠ k) : entLookup es k = none := by
  induction es with
  | nil => rfl
  | cons e rest ih =>
    simp only [entLookup, if_neg (h e (List.mem_cons_self e rest))]
    exact ih fun e' he' => h e' (List.mem_cons_of_mem e he')

theorem mapGet_foldl_insEntry (es : List PersistEntry) (ng : NGCache)
    (k : Bytes) (hnd : (es.map PersistEntry.key).Nodup) :
    mapGet (es.foldl insEntry ng).persistData k =
      ((entLookup es k).rec (mapGet ng.persistData k) fun v => some v :
        Option Bytes) := by
  induction es generalizing ng with
  | nil => simp [entLookup]
  | cons e rest ih =>
    rw [List.map_cons, List.nodup_cons] at hnd
    obtain ⟨hmem, hnd'⟩ := hnd
    simp only [List.foldl_cons]
    rw [ih _ hnd']
    by_cases hk : e.key = k
    · subst hk
      have hnone : entLookup rest e.key = none := by
        apply entLookup_eq_none
        intro e' he'
        intro hcontra
        exact hmem (hcontra ▸ List.mem_map_of_mem PersistEntry.key he')
      rw [hnone]
      simp [entLookup, persistData_insEntry, mapGet_mapSet_self]
    · simp only [entLookup, if_neg hk]
      cases entLookup rest k with
      | none =>
        simp only [persistData_insEntry]
        exact mapGet_mapSet_ne _ _ hk
      | some v => rfl

theorem isSome_mapGet_foldl_insEntry_mem (es : List PersistEntry) (ng : NGCache)
    (e : PersistEntry) (he : e ∈ es) :
    (mapGet (es.foldl insEntry ng).persistData e.key).isSome = true := by
  induction es generalizing ng with
  | nil => cases he
  | cons e' rest ih =>
    rcases List.mem_cons.mp he with rfl | hmem
    · simp only [List.foldl_cons]
      apply isSome_mapGet_foldl_insEntry
      rw [persistData_insEntry]
      simp [mapGet_mapSet_self]
    · simp only [List.foldl_cons]
      exact ih _ hmem

theorem mapGet_foldl_insEntry_empty (es : List PersistEntry)
    (cfg : Option PersistConfig) (k : Bytes)
    (hnd : (es.map PersistEntry.key).Nodup) :
    mapGet (es.foldl insEntry ⟨[], cfg, []⟩).persistData k = entLookup es k := by
  rw [mapGet_foldl_insEntry _ _ _ hnd]
  cases entLookup es k <;> simp [mapGet]

theorem loadFromBinary_encode (ng : NGCache) (d : PersistData)
    (hlen : ∀ e ∈ d.entries,
      e.key.length < 4294967296 ∧ e.value.length < 4294967296)
    (hcount : d.entries.length < 4294967296) :
    loadFromBinary ng (saveToBinary d) = (d.entries.foldl insEntry ng, .ok ()) := by
  rw [saveToBinary, writeEntries_eq]
  simp only [List.nil_append, List.append_assoc]
  have hmagic : BinaryMagic % 4294967296 = BinaryMagic := by decide
  have hver : BinaryVersion % 4294967296 = BinaryVersion := by decide
  obtain ⟨x, hx⟩ := readI64_append d.timestamp
    (u32le d.entries.length ++ d.entries.flatMap specEntryBytes)
  simp only [loadFromBinary, readU32_append, hmagic, hver, hx,
    Nat.mod_eq_of_lt hcount, ne_eq, not_true_eq_false, if_false,
    BinaryVersion]
  exact loadEntries_encode d.entries ng hlen

/-- One step of the facade preserves presence in the permanent store. -/
theorem isSome_persistData_step (ng : NGCache) (op : Op) (k : Bytes)
    (h : (mapGet ng.persistData k).isSome = true) :
    (mapGet (step ng op).persistData k).isSome = true := by
  cases op with
  | put engOk key value e =>
    rw [step, persistData_setWithPersist]
    split
    · exact isSome_mapGet_mapSet _ _ _ _ h
    · exact h
  | setPerm engOk key value =>
    rw [step]
    rcases persistData_SetPermanent ng engOk key value with hp | hp <;> rw [hp]
    · exact h
    · exact isSome_mapGet_mapSet _ _ _ _ h
  | fetch engOk key =>
    rw [step, persistData_getWithPersist]
    exact h
  | getPerm engOk key =>
    rw [step, persistData_GetPermanent]
    exact h
  | evict key => exact h
  | flush => exact h
  | loadBin file => exact isSome_mapGet_loadFromBinary _ _ _ h
  | loadDoc doc =>
    rw [step]
    cases doc with
    | none => simpa [loadFromJSON] using h
    | some d =>
      have hh := isSome_mapGet_foldl_insEntry d.entries ng k h
      simpa [loadFromJSON] using hh

theorem isSome_persistData_runOps (ops : List Op) (ng : NGCache) (k : Bytes)
    (h : (mapGet ng.persistData k).isSome = true) :
    (mapGet (runOps ng ops).persistData k).isSome = true := by
  induction ops generalizing ng with
  | nil => simpa [runOps] using h
  | cons op rest ih =>
    have hstep := isSome_persistData_step ng op k h
    simpa [runOps] using ih (step ng op) hstep

/-! ### Claim theorems -/

/-- C1: with `expireSeconds ≤ 0` and a non-empty value, `Put`
(`setWithPersist`) first copies the value into the permanent store under the
key — an insertion that succeeds even when the engine write fails — and
writes the entry into the engine with TTL 0; a subsequent `Fetch`
(`getWithPersist`) returns the value with no error, even if the engine has
meanwhile evicted the entry and whatever the outcome of the read-repair
re-insert. -/
theorem C1_put_then_fetch (ng : NGCache) (key value : Bytes) (e : Int)
    (engOk2 evictedAfter : Bool) (he : e ≤ 0) (hv : value ≠ []) :
    mapGet (setWithPersist ng true key value e).1.persistData key = some value
    ∧ mapGet (setWithPersist ng false key value e).1.persistData key = some value
    ∧ mapGet (setWithPersist ng true key value e).1.cache key = some (value, 0)
    ∧ (getWithPersist
        (if evictedAfter = true then
          { (setWithPersist ng true key value e).1 with
            cache := mapErase (setWithPersist ng true key value e).1.cache key }
         else (setWithPersist ng true key value e).1) engOk2 key).2
      = .ok value := by
  have he0 : e.toNat = 0 := Int.toNat_of_nonpos he
  have hpd : (setWithPersist ng true key value e).1.persistData
      = mapSet ng.persistData key value := by
    rw [persistData_setWithPersist, if_pos he]
  have hpd' : (setWithPersist ng false key value e).1.persistData
      = mapSet ng.persistData key value := by
    rw [persistData_setWithPersist, if_pos he]
  have hc : (setWithPersist ng true key value e).1.cache
      = mapSet ng.cache key (value, 0) := by
    simp [setWithPersist, engineSet, if_pos he, he0]
  refine ⟨?_, ?_, ?_, ?_⟩
  · rw [hpd, mapGet_mapSet_self]
  · rw [hpd', mapGet_mapSet_self]
  · rw [hc, mapGet_mapSet_self]
  · cases evictedAfter with
    | false =>
      simp [getWithPersist, engineGet, hc, mapGet_mapSet_self]
    | true =>
      simp [getWithPersist, engineGet, hc, hpd, mapGet_mapErase_self,
        mapGet_mapSet_self, engineSet]

/-- C1 witness: a concrete run of the theorem at key 107, value [5],
expireSeconds -3. -/
theorem C1_put_then_fetch_witness :
    mapGet (setWithPersist ⟨[], none, []⟩ true [107] [5] (-3)).1.persistData [107]
      = some [5]
    ∧ mapGet (setWithPersist ⟨[], none, []⟩ false [107] [5] (-3)).1.persistData [107]
      = some [5]
    ∧ mapGet (setWithPersist ⟨[], none, []⟩ true [107] [5] (-3)).1.cache [107]
      = some ([5], 0)
    ∧ (getWithPersist
        (if true = true then
          { (setWithPersist ⟨[], none, []⟩ true [107] [5] (-3)).1 with
            cache := mapErase (setWithPersist ⟨[], none, []⟩ true [107] [5] (-3)).1.cache [107] }
         else (setWithPersist ⟨[], none, []⟩ true [107] [5] (-3)).1) false [107]).2
      = .ok [5] :=
  C1_put_then_fetch ⟨[], none, []⟩ [107] [5] (-3) false true (by decide) (by decide)

/-- C2: when the engine misses a key that the permanent store holds,
`Fetch` (`getWithPersist`) returns the stored value with no error whatever
the outcome of the engine re-insert; on a successful re-insert the entry is
back in the engine with TTL 0, so a direct engine lookup succeeds. -/
theorem C2_fetch_read_repair (ng : NGCache) (key v : Bytes) (engOk : Bool)
    (hmiss : mapGet ng.cache key = none)
    (hhit : mapGet ng.persistData key = some v) :
    (getWithPersist ng engOk key).2 = .ok v
    ∧ mapGet (getWithPersist ng true key).1.cache key = some (v, 0)
    ∧ engineGet (getWithPersist ng true key).1.cache key = .ok v := by
  have hG : engineGet ng.cache key = .error .engNotFound := by
    simp [engineGet, hmiss]
  refine ⟨?_, ?_, ?_⟩
  · simp [getWithPersist, hG, hhit, engineSet]
  · simp [getWithPersist, hG, hhit, engineSet, mapGet_mapSet_self]
  · simp [getWithPersist, hG, hmiss, hhit, engineSet, engineGet,
      mapGet_mapSet_self]

/-- C2 witness: a concrete run with key 9 present only in the permanent
store, with a failing re-insert for the value conjunct. -/
theorem C2_fetch_read_repair_witness :
    (getWithPersist ⟨[], none, [([9], [1, 2])]⟩ false [9]).2 = .ok [1, 2]
    ∧ mapGet (getWithPersist ⟨[], none, [([9], [1, 2])]⟩ true [9]).1.cache [9]
      = some ([1, 2], 0)
    ∧ engineGet (getWithPersist ⟨[], none, [([9], [1, 2])]⟩ true [9]).1.cache [9]
      = .ok [1, 2] :=
  C2_fetch_read_repair ⟨[], none, [([9], [1, 2])]⟩ [9] [1, 2] false
    (by decide) (by decide)

/-- C6: the compact-binary encoder produces exactly the spec's byte layout:
little-endian uint32 magic 0x4E474341 at offset 0, uint32 version 1 at
offset 4, int64 timestamp at offset 8, uint32 entry count at offset 16,
then per entry uint32 key length, key bytes, uint32 value length, value
bytes. -/
theorem C6_binary_layout (d : PersistData) :
    saveToBinary d = specBinaryLayout d
    ∧ (saveToBinary d).take 4 = u32le 0x4E474341
    ∧ ((saveToBinary d).drop 4).take 4 = u32le 1
    ∧ ((saveToBinary d).drop 8).take 8 = i64le d.timestamp
    ∧ ((saveToBinary d).drop 16).take 4 = u32le d.entries.length := by
  have hmain : saveToBinary d = specBinaryLayout d := by
    rw [saveToBinary, writeEntries_eq]
    simp [specBinaryLayout, BinaryMagic, BinaryVersion]
  refine ⟨hmain, ?_, ?_, ?_, ?_⟩ <;> rw [hmain] <;> rfl

/-- C7: the binary decoder checks the magic number first — any file whose
first four bytes are not little-endian 0x4E474341 fails with the bad-magic
error, whatever the remaining bytes hold, leaving the store untouched — and
a correct magic followed by a version other than 1 fails with the distinct
bad-version error. -/
theorem C7_magic_before_version :
    (∀ ng : NGCache, ∀ file : Bytes, ∀ m : Nat, ∀ rest : Bytes,
      readU32 file = some (m, rest) → m ≠ BinaryMagic →
      loadFromBinary ng file = (ng, .error .badMagic))
    ∧ (∀ ng : NGCache, ∀ v : Nat, ∀ rest : Bytes, v < 4294967296 → v ≠ 1 →
      (loadFromBinary ng (u32le BinaryMagic ++ (u32le v ++ rest))).2
        = .error .badVersion)
    ∧ Err.badMagic ≠ Err.badVersion := by
  refine ⟨?_, ?_, by decide⟩
  · intro ng file m rest h hm
    simp [loadFromBinary, h, hm]
  · intro ng v rest hv h1
    have hm : BinaryMagic % 4294967296 = BinaryMagic := by decide
    simp [loadFromBinary, readU32_append, hm, Nat.mod_eq_of_lt hv, h1,
      BinaryMagic, BinaryVersion]

/-- C7 witness: the all-zero header fails with bad magic (here followed by
a well-formed version field, showing the magic is checked first), and a
version-2 header after a correct magic fails with the distinct bad-version
error. -/
theorem C7_magic_before_version_witness :
    loadFromBinary ⟨[], none, []⟩ ([0, 0, 0, 0] ++ u32le 1)
      = (⟨[], none, []⟩, .error .badMagic)
    ∧ (loadFromBinary ⟨[], none, []⟩ (u32le BinaryMagic ++ (u32le 2 ++ []))).2
      = .error .badVersion
    ∧ Err.badMagic ≠ Err.badVersion := by
  have h := C7_magic_before_version
  exact ⟨h.1 ⟨[], none, []⟩ ([0, 0, 0, 0] ++ u32le 1) 0 (u32le 1) (by decide)
      (by decide),
    h.2.1 ⟨[], none, []⟩ 2 [] (by decide) (by decide), h.2.2⟩

/-- C8: whenever a fetch succeeds with data whose length differs from the
requested scalar's fixed width (4 bytes for int32/float32, 8 for
int64/float64, 1 for bool), the typed getter returns the type's zero value
paired with `ErrInvalidType`. -/
theorem C8_typed_getters_invalid_length (ng : NGCache) (engOk : Bool)
    (key data : Bytes) (h : (getWithPersist ng engOk key).2 = .ok data) :
    (data.length ≠ 4 → (GetInt32 ng engOk key).2 = (0, .error .errInvalidType))
    ∧ (data.length ≠ 8 → (GetInt64 ng engOk key).2 = (0, .error .errInvalidType))
    ∧ (data.length ≠ 4 → (GetFloat32 ng engOk key).2 = (0, .error .errInvalidType))
    ∧ (data.length ≠ 8 → (GetFloat64 ng engOk key).2 = (0, .error .errInvalidType))
    ∧ (data.length ≠ 1 → (GetBool ng engOk key).2 = (false, .error .errInvalidType)) := by
  rcases hgw : getWithPersist ng engOk key with ⟨ng1, res⟩
  rw [hgw] at h
  simp only at h
  subst h
  refine ⟨?_, ?_, ?_, ?_, ?_⟩ <;> intro hl <;>
    simp [GetInt32, GetInt64, GetFloat32, GetFloat64, GetBool, hgw, hl]

/-- C8 witness: key 107 holds the 2-byte value [1, 2]; all five typed
getters report the invalid-type error with their zero value. -/
theorem C8_typed_getters_invalid_length_witness :
    (GetInt32 ⟨[], none, [([107], [1, 2])]⟩ true [107]).2
      = (0, .error .errInvalidType)
    ∧ (GetInt64 ⟨[], none, [([107], [1, 2])]⟩ true [107]).2
      = (0, .error .errInvalidType)
    ∧ (GetFloat32 ⟨[], none, [([107], [1, 2])]⟩ true [107]).2
      = (0, .error .errInvalidType)
    ∧ (GetFloat64 ⟨[], none, [([107], [1, 2])]⟩ true [107]).2
      = (0, .error .errInvalidType)
    ∧ (GetBool ⟨[], none, [([107], [1, 2])]⟩ true [107]).2
      = (false, .error .errInvalidType) := by
  have h := C8_typed_getters_invalid_length ⟨[], none, [([107], [1, 2])]⟩ true
    [107] [1, 2] (by rfl)
  exact ⟨h.1 (by decide), h.2.1 (by decide), h.2.2.1 (by decide),
    h.2.2.2.1 (by decide), h.2.2.2.2 (by decide)⟩

/-- C3: decoding the encoding of a permanent store reproduces its
key-to-value mapping for both snapshot formats, decoding into an empty
store: byte-exactly for the compact-binary codec, and through any faithful
external JSON codec for the structured-text format (entry keys are distinct
because the entries are produced from a map; lengths are below 2^32 as the
formats' uint32 fields require). -/
theorem C3_snapshot_round_trip (cfg : Option PersistConfig) (t : Int)
    (es : List PersistEntry) (k : Bytes)
    (hnd : (es.map PersistEntry.key).Nodup)
    (hlen : ∀ e ∈ es, e.key.length < 4294967296 ∧ e.value.length < 4294967296)
    (hcount : es.length < 4294967296) :
    ((loadFromBinary ⟨[], cfg, []⟩ (saveToBinary ⟨1, t, es⟩)).2 = .ok ()
      ∧ mapGet (loadFromBinary ⟨[], cfg, []⟩
          (saveToBinary ⟨1, t, es⟩)).1.persistData k = entLookup es k)
    ∧ (∀ {α : Type} (enc : PersistData → α) (dec : α → Option PersistData),
        (∀ d, dec (enc d) = some d) →
        (loadFromJSON ⟨[], cfg, []⟩ (dec (enc ⟨1, t, es⟩))).2 = .ok ()
        ∧ mapGet (loadFromJSON ⟨[], cfg, []⟩
            (dec (enc ⟨1, t, es⟩))).1.persistData k = entLookup es k) := by
  have hbin := loadFromBinary_encode ⟨[], cfg, []⟩ ⟨1, t, es⟩ hlen hcount
  constructor
  · rw [hbin]
    exact ⟨rfl, mapGet_foldl_insEntry_empty es cfg k hnd⟩
  · intro α enc dec hfaithful
    rw [hfaithful]
    exact ⟨rfl, mapGet_foldl_insEntry_empty es cfg k hnd⟩

/-- C3 witness: a two-entry store with a non-ASCII key (the UTF-8 bytes of
a Latin small letter e with acute) and an empty value, round-tripped through
the binary codec and through the identity JSON codec. -/
theorem C3_snapshot_round_trip_witness :
    ((loadFromBinary ⟨[], none, []⟩
        (saveToBinary ⟨1, 0, [⟨[195, 169], []⟩, ⟨[107], [0, 255]⟩]⟩)).2 = .ok ()
      ∧ mapGet (loadFromBinary ⟨[], none, []⟩
          (saveToBinary ⟨1, 0, [⟨[195, 169], []⟩, ⟨[107], [0, 255]⟩]⟩)).1.persistData
          [195, 169]
        = entLookup [⟨[195, 169], []⟩, ⟨[107], [0, 255]⟩] [195, 169])
    ∧ ((loadFromJSON ⟨[], none, []⟩
          ((fun x => x) (some ⟨1, 0, [⟨[195, 169], []⟩, ⟨[107], [0, 255]⟩]⟩))).2
        = .ok ()
      ∧ mapGet (loadFromJSON ⟨[], none, []⟩
          ((fun x => x) (some ⟨1, 0, [⟨[195, 169], []⟩, ⟨[107], [0, 255]⟩]⟩))).1.persistData
          [195, 169]
        = entLookup [⟨[195, 169], []⟩, ⟨[107], [0, 255]⟩] [195, 169]) := by
  have h := C3_snapshot_round_trip none 0 [⟨[195, 169], []⟩, ⟨[107], [0, 255]⟩]
    [195, 169] (by decide) (by decide) (by decide)
  exact ⟨h.1, h.2 some (fun x => x) (fun d => rfl)⟩

/-- C9: once a key is present in the permanent store it stays present under
every sequence of operations (puts, permanent sets, fetches, permanent gets,
engine evictions, flushes, snapshot loads) — no operation deletes an
individual entry — and construction populates the map only from the startup
load applied to an initially empty map (it is empty whenever persistence is
absent or disabled). -/
theorem C9_permanent_store_monotone :
    (∀ ng : NGCache, ∀ k : Bytes, (mapGet ng.persistData k).isSome = true →
      ∀ ops : List Op, (mapGet (runOps ng ops).persistData k).isSome = true)
    ∧ (∀ jdec : Bytes → Option PersistData, ∀ file : Option Bytes,
        (NewNGCache jdec none file).persistData = [])
    ∧ (∀ jdec : Bytes → Option PersistData, ∀ cfg : PersistConfig,
        ∀ file : Option Bytes, cfg.enabled = false →
        (NewNGCache jdec (some cfg) file).persistData = [])
    ∧ (∀ jdec : Bytes → Option PersistData, ∀ cfg : PersistConfig,
        ∀ file : Option Bytes, cfg.enabled = true →
        NewNGCache jdec (some cfg) file
          = (loadFromPersist jdec ⟨[], some cfg, []⟩ file).1) := by
  refine ⟨?_, ?_, ?_, ?_⟩
  · intro ng k h ops
    exact isSome_persistData_runOps ops ng k h
  · intro jdec file
    rfl
  · intro jdec cfg file hd
    simp [NewNGCache, hd]
  · intro jdec cfg file he
    simp [NewNGCache, he]

/-- C9 witness: a key set by a permanent put survives a concrete operation
sequence of an eviction, a fetch, an overwrite and a flush; and disabled
construction yields an empty permanent store. -/
theorem C9_permanent_store_monotone_witness :
    (mapGet (runOps ⟨[], none, [([3], [7])]⟩
        [.evict [3], .fetch true [3], .put false [3] [8] 0, .flush]).persistData
      [3]).isSome = true
    ∧ (NewNGCache (fun _ => none) none (some [0, 0, 0, 0])).persistData = [] := by
  have h := C9_permanent_store_monotone
  exact ⟨h.1 ⟨[], none, [([3], [7])]⟩ [3] (by decide)
      [.evict [3], .fetch true [3], .put false [3] [8] 0, .flush],
    h.2.1 (fun _ => none) (some [0, 0, 0, 0])⟩

/-- C10: `SetPermanent` mirrors an entry into the permanent store only when
persistence is configured and enabled, and only after the engine write
succeeded (an engine failure leaves the state unchanged and propagates);
with a nil or disabled configuration it writes solely to the engine, so
after an engine eviction `GetPermanent` fails with the engine's not-found
error instead of returning the value — whereas `Put` with non-positive TTL
records the entry in the permanent store unconditionally, before and
regardless of the engine write. -/
theorem C10_setPermanent_vs_put :
    (∀ ng : NGCache, ∀ cfg : PersistConfig, ng.persistConfig = some cfg →
      cfg.enabled = true → ∀ k v : Bytes,
      (SetPermanent ng true k v).1.persistData = mapSet ng.persistData k v
        ∧ (SetPermanent ng true k v).2 = .ok ())
    ∧ (∀ ng : NGCache, ∀ k v : Bytes,
        SetPermanent ng false k v = (ng, .error .engSetFail))
    ∧ (∀ ng : NGCache, (ng.persistConfig = none ∨
          ∃ cfg, ng.persistConfig = some cfg ∧ cfg.enabled = false) →
        ∀ k v : Bytes,
        (SetPermanent ng true k v).1.persistData = ng.persistData
          ∧ (SetPermanent ng true k v).1.cache = mapSet ng.cache k (v, 0)
          ∧ (SetPermanent ng true k v).2 = .ok ())
    ∧ (∀ ng : NGCache, (ng.persistConfig = none ∨
          ∃ cfg, ng.persistConfig = some cfg ∧ cfg.enabled = false) →
        ∀ k : Bytes, ∀ engOk : Bool, mapGet ng.cache k = none →
        (GetPermanent ng engOk k).2 = .error .engNotFound)
    ∧ (∀ ng : NGCache, ∀ engOk : Bool, ∀ k v : Bytes, ∀ e : Int, e ≤ 0 →
        mapGet (setWithPersist ng engOk k v e).1.persistData k = some v) := by
  refine ⟨?_, ?_, ?_, ?_, ?_⟩
  · intro ng cfg hcfg hen k v
    constructor <;> simp [SetPermanent, engineSet, hcfg, hen]
  · intro ng k v
    simp [SetPermanent, engineSet]
  · intro ng hdis k v
    rcases hdis with hnone | ⟨cfg, hcfg, hen⟩
    · refine ⟨?_, ?_, ?_⟩ <;> simp [SetPermanent, engineSet, hnone]
    · refine ⟨?_, ?_, ?_⟩ <;> simp [SetPermanent, engineSet, hcfg, hen]
  · intro ng hdis k engOk hmiss
    have hG : engineGet ng.cache k = .error .engNotFound := by
      simp [engineGet, hmiss]
    rcases hdis with hnone | ⟨cfg, hcfg, hen⟩
    · simp [GetPermanent, hG, hnone]
    · simp [GetPermanent, hG, hcfg, hen]
  · intro ng engOk k v e he
    rw [persistData_setWithPersist, if_pos he, mapGet_mapSet_self]

/-- C10 witness: with persistence disabled, a permanent set touches only
the engine; after eviction the permanent get fails with the engine's error,
while a put with TTL 0 lands in the permanent store even when the engine
write fails. -/
theorem C10_setPermanent_vs_put_witness :
    ((SetPermanent ⟨[], none, []⟩ true [1] [2]).1.persistData = []
      ∧ (SetPermanent ⟨[], none, []⟩ true [1] [2]).1.cache
        = mapSet [] [1] ([2], 0)
      ∧ (SetPermanent ⟨[], none, []⟩ true [1] [2]).2 = .ok ())
    ∧ SetPermanent ⟨[], some ⟨true, "", "", .binary, 1⟩, []⟩ false [1] [2]
      = (⟨[], some ⟨true, "", "", .binary, 1⟩, []⟩, .error .engSetFail)
    ∧ (GetPermanent ⟨[], none, [([1], [2])]⟩ true [1]).2 = .error .engNotFound
    ∧ mapGet (setWithPersist ⟨[], none, []⟩ false [1] [2] 0).1.persistData [1]
      = some [2] := by
  have h := C10_setPermanent_vs_put
  refine ⟨?_, h.2.1 ⟨[], some ⟨true, "", "", .binary, 1⟩, []⟩ [1] [2],
    h.2.2.2.1 ⟨[], none, [([1], [2])]⟩ (Or.inl rfl) [1] true (by decide),
    h.2.2.2.2 ⟨[], none, []⟩ false [1] [2] 0 (by decide)⟩
  have h3 := h.2.2.1 ⟨[], none, []⟩ (Or.inl rfl) [1] [2]
  exact h3

/-- C4 counterexample: with persistence enabled (binary format) and a
corrupt snapshot file (first four bytes not the magic number), the startup
load fails with a decode error, yet `NewNGCache` completes normally and
returns a cache with an empty permanent store — the claimed abort and error
report do not happen: construction silently degrades to an empty store. -/
theorem C4_counterexample :
    (loadFromPersist (fun _ => none)
        ⟨[], some ⟨true, "", "", .binary, 1⟩, []⟩ (some [0, 0, 0, 0])).2
      = .error .badMagic
    ∧ NewNGCache (fun _ => none) (some ⟨true, "", "", .binary, 1⟩)
        (some [0, 0, 0, 0])
      = ⟨[], some ⟨true, "", "", .binary, 1⟩, []⟩ :=
  ⟨rfl, rfl⟩

/-- C4 amended: a startup decode failure does not propagate out of
construction — `NewNGCache` discards the load error and returns the cache
in whatever (empty or partially loaded) state the failed load produced. -/
theorem C4_amended_construction_ignores_load_error
    (jdec : Bytes → Option PersistData) (cfg : PersistConfig)
    (file : Option Bytes) (e : Err) (hen : cfg.enabled = true)
    (hfail : (loadFromPersist jdec ⟨[], some cfg, []⟩ file).2 = .error e) :
    NewNGCache jdec (some cfg) file
      = (loadFromPersist jdec ⟨[], some cfg, []⟩ file).1 := by
  simp [NewNGCache, hen]

/-- C4 witness: a concrete corrupt binary file for which the load fails
with bad magic while construction still returns the load's state. -/
theorem C4_amended_witness :
    NewNGCache (fun _ => none) (some ⟨true, "", "", .binary, 1⟩)
        (some [255, 0, 0, 0, 9])
      = (loadFromPersist (fun _ => none)
          ⟨[], some ⟨true, "", "", .binary, 1⟩, []⟩ (some [255, 0, 0, 0, 9])).1 :=
  C4_amended_construction_ignores_load_error (fun _ => none)
    ⟨true, "", "", .binary, 1⟩ (some [255, 0, 0, 0, 9]) .badMagic rfl rfl

/-- C5 counterexample: the structured-text loader accepts a parsed document
whose version field is 2 — no error is reported and its entry is loaded
into the permanent store, contradicting the claimed version check. -/
theorem C5_counterexample :
    (loadFromJSON ⟨[], none, []⟩ (some ⟨2, 0, [⟨[97], [1]⟩]⟩)).2 = .ok ()
    ∧ mapGet (loadFromJSON ⟨[], none, []⟩
        (some ⟨2, 0, [⟨[97], [1]⟩]⟩)).1.persistData [97] = some [1] :=
  ⟨rfl, rfl⟩

/-- C5 amended: the structured-text decoder performs no version check at
all: every successfully parsed document is loaded without error, whatever
its version field holds, and each of its entries ends up present in the
permanent store (only the binary decoder rejects a version mismatch). -/
theorem C5_amended_json_loader_ignores_version (ng : NGCache) (d : PersistData) :
    (loadFromJSON ng (some d)).2 = .ok ()
    ∧ ∀ e ∈ d.entries,
        (mapGet (loadFromJSON ng (some d)).1.persistData e.key).isSome = true := by
  refine ⟨rfl, ?_⟩
  intro e he
  have hh := isSome_mapGet_foldl_insEntry_mem d.entries ng e he
  simpa [loadFromJSON] using hh

/-- C5 amended witness: a version-7 document with one entry loads without
error and the entry is present. -/
theorem C5_amended_witness :
    (loadFromJSON ⟨[], none, []⟩ (some ⟨7, 5, [⟨[98], []⟩]⟩)).2 = .ok ()
    ∧ (mapGet (loadFromJSON ⟨[], none, []⟩
        (some ⟨7, 5, [⟨[98], []⟩]⟩)).1.persistData [98]).isSome = true := by
  have h := C5_amended_json_loader_ignores_version ⟨[], none, []⟩
    ⟨7, 5, [⟨[98], []⟩]⟩
  exact ⟨h.1, h.2 ⟨[98], []⟩ (by decide)⟩

end NGCat
